import Mathlib

/-!
Shallow embedding of the bulk export script src/data_dump.py.

The script dumps a vault table to CSV through a paginated HTTP API, in
waves of concurrent chunk fetches, and optionally runs a second token
phase joined back to the scan output by the skyflow_id column.

Network effects are modelled by passing each call site its response as a
value; file effects (the CSV buffer and the error log) are modelled as
accumulated lists.  The while loops are modelled with explicit fuel.
Where concurrent workers append to the buffer or the log in completion
order, the model fixes submission order; the counts and the multisets of
appended items do not depend on that order.
-/

/-- One record returned by the vault API: the JSON object under the key
fields, modelled as an association list from column name to value. -/
structure ApiRecord where
  fields : List (String × String)
deriving DecidableEq

/-- An HTTP response as the script consumes it: status code, raw text, and
the records array of the JSON body, defaulting to empty when absent as in
the get call with default on the parsed body. -/
structure Response where
  status : Nat
  text : String
  records : List ApiRecord
deriving DecidableEq

/-- Outcome of one attempt inside make_api_call: either a response for
which raise_for_status passed, or a RequestException with a message. -/
inductive AttemptOutcome where
  | ok (resp : Response)
  | exn (e : String)
deriving DecidableEq

/-- True when the attempt raised. -/
def AttemptOutcome.isExn : AttemptOutcome → Bool
  | .ok _ => false
  | .exn _ => true

/-- Observable trace of one make_api_call invocation: the returned value,
with none modelling the Python failure marker None, the sleep durations
performed in order, the error log lines appended, and the number of
attempts made. -/
structure CallTrace where
  result : Option Response
  sleeps : List Nat
  logs : List String
  attemptsMade : Nat
deriving DecidableEq

/-- The retry loop of make_api_call, data_dump.py lines 65 to 81: attempt
is the current index of range(retries) and fuel the number of iterations
left.  On an exception before the last attempt it sleeps 2 ^ attempt and
continues; on the last attempt it appends one log line and returns none. -/
def apiCallGo (attempts : Nat → AttemptOutcome) : Nat → Nat → CallTrace
  | _, 0 => ⟨none, [], [], 0⟩
  | attempt, fuel + 1 =>
    match attempts attempt with
    | .ok r => ⟨some r, [], [], 1⟩
    | .exn e =>
      if attempt < 3 - 1 then
        let rest := apiCallGo attempts (attempt + 1) fuel
        ⟨rest.result, 2 ^ attempt :: rest.sleeps, rest.logs, rest.attemptsMade + 1⟩
      else
        ⟨none, [], ["API call failed after 3 attempts: " ++ e], 1⟩

/-- make_api_call with retries = 3; the argument gives the outcome of each
request attempt by index. -/
def make_api_call (attempts : Nat → AttemptOutcome) : CallTrace :=
  apiCallGo attempts 0 3

/-- Lookup of a key in an association list of fields, as Python dict
access on a dict with distinct keys. -/
def lookupField (fields : List (String × String)) (k : String) : Option String :=
  (fields.find? (fun kv => kv.1 == k)).map (fun kv => kv.2)

/-- writerow of csv.DictWriter with the default extrasaction raise and the
default restval empty string: it fails on a row holding a key outside
fieldnames, and otherwise renders the row in fieldnames order, writing the
empty string for fieldnames keys the row misses. -/
def dictWriterRow (fieldnames : List String) (row : List (String × String)) :
    Except String (List String) :=
  if row.all (fun kv => fieldnames.contains kv.1) then
    .ok (fieldnames.map (fun f => (lookupField row f).getD ""))
  else
    .error "ValueError: dict contains fields not in fieldnames"

/-- Result of one chunk worker: the value of the Python call, where ok n
is a returned record count and error e an unhandled exception re-raised
at the result call of the future, the rows the worker appended to the
buffer, and the error log lines it appended. -/
structure ChunkResult where
  count : Except String Nat
  rows : List (List String)
  logs : List String

/-- process_chunk, data_dump.py lines 84 to 101: on a response with
status 200 it writes every record by passing its fields dict unchanged to
writerow, which raises on any field outside the schema, and returns the
record count; otherwise it appends one log line naming the offset and
returns 0.  Rows a chunk wrote before raising are not modelled, since the
exception aborts the whole run. -/
def process_chunk (offset : Nat) (fieldnames : List String) (resp : Option Response) :
    ChunkResult :=
  match resp with
  | some r =>
    if r.status = 200 then
      match r.records.mapM (fun rec => dictWriterRow fieldnames rec.fields) with
      | .ok rows => ⟨.ok r.records.length, rows, []⟩
      | .error e => ⟨.error e, [], []⟩
    else ⟨.ok 0, [], ["Error occurred at offset " ++ toString offset ++ ": " ++ r.text]⟩
  | none => ⟨.ok 0, [], ["Error occurred at offset " ++ toString offset ++ ": No response"]⟩

/-- The row projection of process_token_chunk, data_dump.py line 118: keep
exactly the schema columns, reading the empty string for columns the
record misses and dropping every other field. -/
def tokenRowProjection (fieldnames : List String) (fields : List (String × String)) :
    List (String × String) :=
  fieldnames.map (fun f => (f, (lookupField fields f).getD ""))

/-- process_token_chunk, data_dump.py lines 104 to 125: on a response with
status 200 it writes every record projected onto the schema and returns
the record count, otherwise it appends one log line naming the id batch
and returns 0. -/
def process_token_chunk (ids : List String) (fieldnames : List String)
    (resp : Option Response) : ChunkResult :=
  match resp with
  | some r =>
    if r.status = 200 then
      match r.records.mapM
          (fun rec => dictWriterRow fieldnames (tokenRowProjection fieldnames rec.fields)) with
      | .ok rows => ⟨.ok r.records.length, rows, []⟩
      | .error e => ⟨.error e, [], []⟩
    else ⟨.ok 0, [], ["Error occurred for skyflow_ids " ++ toString ids ++ ": " ++ r.text]⟩
  | none => ⟨.ok 0, [], ["Error occurred for skyflow_ids " ++ toString ids ++ ": No response"]⟩

/-- Query parameters of the scan chunk URL built on data_dump.py line 85,
in the order they appear in the query string. -/
def scanChunkQuery (redaction : String) (offset : Nat) : List (String × String) :=
  [("redaction", redaction), ("offset", toString offset), ("order_by", "ASCENDING")]

/-- Query parameters of the token chunk URL built on data_dump.py lines
105 to 107: tokenization=true, then one skyflow_ids parameter per id of
the batch, in batch order. -/
def tokenChunkQuery (ids : List String) : List (String × String) :=
  ("tokenization", "true") :: ids.map (fun i => ("skyflow_ids", i))

/-- Accumulated observable state of the scan scheduling loop: the running
total of returned record counts, the buffer rows, the error log lines,
the submitted offsets, and the offset cursor. -/
structure ScanOutcome where
  dumped : Nat
  buffer : List (List String)
  logs : List String
  submitted : List Nat
  cursor : Nat
deriving DecidableEq

/-- One wave of submissions, data_dump.py lines 207 to 211: up to i
submissions, each advancing the offset cursor by chunk, stopping early
once the cursor reaches total.  Returns the submitted offsets and the
cursor after the wave. -/
def waveSubmit (total chunk : Nat) : Nat → Nat → List Nat × Nat
  | offset, 0 => ([], offset)
  | offset, i + 1 =>
    if total ≤ offset then ([], offset)
    else
      let rest := waveSubmit total chunk (offset + chunk) i
      (offset :: rest.1, rest.2)

/-- All offsets submitted by the scan while loop, data_dump.py lines 204
to 211, from a given cursor with the given fuel. -/
def scanOffsetsGo (total chunk maxp : Nat) : Nat → Nat → List Nat
  | 0, _ => []
  | fuel + 1, offset =>
    if offset < total then
      let w := waveSubmit total chunk offset maxp
      w.1 ++ scanOffsetsGo total chunk maxp fuel w.2
    else []

/-- The offsets the scan phase submits, with fuel total + 1, which is
sufficient whenever chunk and maxp are positive. -/
def scanOffsets (total chunk maxp : Nat) : List Nat :=
  scanOffsetsGo total chunk maxp (total + 1) 0

/-- Final value of the offset cursor when the scan while loop exits. -/
def finalCursorGo (total chunk maxp : Nat) : Nat → Nat → Nat
  | 0, offset => offset
  | fuel + 1, offset =>
    if offset < total then
      finalCursorGo total chunk maxp fuel (waveSubmit total chunk offset maxp).2
    else offset

/-- Final value of the offset cursor of the scan phase. -/
def finalCursor (total chunk maxp : Nat) : Nat :=
  finalCursorGo total chunk maxp (total + 1) 0

/-- Effect of one submitted chunk on the accumulated state: the submission
advanced the cursor by chunk, line 211, the worker appended its rows and
log lines, and the join on lines 213 to 216 either adds the returned count
to the running total or re-raises the exception of the worker. -/
def stepOffset (chunk : Nat) (fieldnames : List String) (net : Nat → Option Response)
    (acc : ScanOutcome) (o : Nat) : Except String ScanOutcome :=
  let r := process_chunk o fieldnames (net o)
  match r.count with
  | .ok n =>
    .ok ⟨acc.dumped + n, acc.buffer ++ r.rows, acc.logs ++ r.logs,
      acc.submitted ++ [o], o + chunk⟩
  | .error e => .error e

/-- The scan while loop, data_dump.py lines 201 to 216: waves of up to
maxp chunks with a join barrier after each wave. -/
def runScanGo (total chunk maxp : Nat) (fieldnames : List String)
    (net : Nat → Option Response) : Nat → Nat → ScanOutcome → Except String ScanOutcome
  | 0, _, acc => .ok acc
  | fuel + 1, offset, acc =>
    if offset < total then
      let w := waveSubmit total chunk offset maxp
      match w.1.foldlM (stepOffset chunk fieldnames net) acc with
      | .ok acc2 => runScanGo total chunk maxp fieldnames net fuel w.2 acc2
      | .error e => .error e
    else .ok acc

/-- The whole scan phase from cursor 0 with empty accumulators; net gives
the outcome of make_api_call for the chunk at each offset. -/
def runScan (total chunk maxp : Nat) (fieldnames : List String)
    (net : Nat → Option Response) : Except String ScanOutcome :=
  runScanGo total chunk maxp fieldnames net (total + 1) 0 ⟨0, [], [], [], 0⟩

/-- Schema derivation, data_dump.py lines 175 to 188: the keys of the
fields of the first record, reordered.  With a configured unique id column
that column must already be a key, a fatal error otherwise, and is placed
first with skyflow_id second; without one, skyflow_id is placed first.
Every other column keeps its original relative order. -/
def derive_fieldnames (uniqueIdColumn : Option String) (fields : List (String × String)) :
    Except String (List String) :=
  let fieldnames := fields.map Prod.fst
  match uniqueIdColumn with
  | some u =>
    if fieldnames.contains u then
      .ok (u :: "skyflow_id" :: fieldnames.filter (fun f => f != u && f != "skyflow_id"))
    else
      .error "Unique column specified is not found. Please rerun the script without the parameter or specify the correct name of unique column."
  | none => .ok ("skyflow_id" :: fieldnames.filter (fun f => f != "skyflow_id"))

/-- True when an optional response fails the pipeline gates of
data_dump.py lines 141 and 161: missing or with a status other than 200. -/
def respFailed : Option Response → Bool
  | none => true
  | some r => r.status != 200

/-- Result of the scan pipeline: the process exit code, the published
artifact as header plus rows with none when no output file was written,
the error log lines appended by the pipeline code itself, the printed
dumped count, and the offsets the scan phase submitted. -/
structure PipelineResult where
  exitCode : Nat
  artifact : Option (List String × List (List String))
  logs : List String
  dumped : Option Nat
  scanSubmitted : List Nat
deriving DecidableEq

/-- The scan pipeline of data_dump.py lines 137 to 231: count gate, probe
gate, empty probe gate, unique column gate, then the scheduled scan and
the copy of the buffer to the output file.  Each gate logs one line and
exits with status 1; an exception re-raised at a join aborts the process
with a nonzero status before the output file is written; total is the
count extracted from the count response body on line 150. -/
def runPipeline (uid : Option String) (countResp : Option Response) (total : Nat)
    (probeResp : Option Response) (chunk maxp : Nat) (net : Nat → Option Response) :
    PipelineResult :=
  match countResp with
  | none => ⟨1, none, ["Failed to retrieve record count: No response"], none, []⟩
  | some cr =>
    if cr.status ≠ 200 then
      ⟨1, none, ["Failed to retrieve record count: " ++ cr.text], none, []⟩
    else
      match probeResp with
      | none => ⟨1, none, ["Failed to retrieve data: No response"], none, []⟩
      | some pr =>
        if pr.status ≠ 200 then
          ⟨1, none, ["Failed to retrieve data: " ++ pr.text], none, []⟩
        else
          match pr.records with
          | [] => ⟨1, none, ["No records found in initial response"], none, []⟩
          | rec0 :: _ =>
            match derive_fieldnames uid rec0.fields with
            | .error msg => ⟨1, none, [msg], none, []⟩
            | .ok fns =>
              match runScan total chunk maxp fns net with
              | .error _ => ⟨1, none, [], none, []⟩
              | .ok out =>
                ⟨0, some (fns, out.buffer), out.logs, some out.dumped, out.submitted⟩

/-- Everything the script prints after the scan loop, data_dump.py lines
230 and 231: the dumped count line and the elapsed time line.  The elapsed
time rendering is passed in as a string. -/
def endOfRunReport (totalRecordsDumped : Nat) (elapsed : String) : List String :=
  ["Data dump completed. Total records dumped: " ++ toString totalRecordsDumped,
   "Total time taken: " ++ elapsed ++ " seconds"]

/-- Whether sub occurs as a contiguous substring of s. -/
def strContains (s sub : String) : Bool :=
  (List.range (s.length + 1)).any (fun i => sub.toList.isPrefixOf (s.toList.drop i))

/-- Python dict assignment on an association list: replace the value at
the key when present, append the pair otherwise. -/
def dictInsert (m : List (String × String)) (k v : String) : List (String × String) :=
  if m.any (fun kv => kv.1 == k) then
    m.map (fun kv => if kv.1 == k then (kv.1, v) else kv)
  else m ++ [(k, v)]

/-- Read of a CSV row column with empty default; rows read back by
DictReader carry every header column as a key. -/
def getField (row : List (String × String)) (k : String) : String :=
  (lookupField row k).getD ""

/-- Reading the published scan artifact, data_dump.py lines 236 to 243:
collect the skyflow_id of every row in order and, when a unique id column
is configured, build the join map from skyflow_id to the value of that
column, later rows overwriting earlier ones. -/
def readScanArtifact (uid : Option String) (rows : List (List (String × String))) :
    List String × List (String × String) :=
  rows.foldl
    (fun acc row =>
      (acc.1 ++ [getField row "skyflow_id"],
        match uid with
        | some u => dictInsert acc.2 (getField row "skyflow_id") (getField row u)
        | none => acc.2))
    ([], [])

/-- The merge of one token row, data_dump.py lines 277 to 280: when a
unique id column is configured and the skyflow_id of the row is a key of
the join map, assign the join map value to the unique column of the row;
otherwise keep the row unchanged. -/
def mergeTokenRow (uid : Option String) (joinMap : List (String × String))
    (row : List (String × String)) : List (String × String) :=
  match uid with
  | some u =>
    match lookupField joinMap (getField row "skyflow_id") with
    | some v => dictInsert row u v
    | none => row
  | none => row

/-- The merge loop over the token buffer rows, in reading order. -/
def mergeTokenRows (uid : Option String) (joinMap : List (String × String))
    (rows : List (List (String × String))) : List (List (String × String)) :=
  rows.map (mergeTokenRow uid joinMap)

/-- Writing the merged rows to the token output file, data_dump.py lines
283 to 287: each row rendered in schema column order. -/
def publishTokenData (fieldnames : List String)
    (rows : List (List (String × String))) : List (List String) :=
  rows.map (fun row => fieldnames.map (fun f => (lookupField row f).getD ""))

/-! ### Helper definitions and lemmas for the scheduling loop -/

/-- Number of chunks the scan phase plans for a table of the given size:
the ceiling of total divided by chunk. -/
def ceilChunks (total chunk : Nat) : Nat := (total + chunk - 1) / chunk

/-- Planned width of the chunk at a given offset: a full chunk except for
the final partial one. -/
def plannedWidth (total chunk o : Nat) : Nat := min chunk (total - o)

lemma lt_ceilChunks_iff (total chunk j : Nat) (hc : 0 < chunk) :
    j < ceilChunks total chunk ↔ chunk * j < total := by
  unfold ceilChunks
  rw [Nat.lt_iff_add_one_le, Nat.le_div_iff_mul_le hc, Nat.succ_mul, Nat.mul_comm]
  omega

lemma ceilChunks_le_total (total chunk : Nat) (hc : 0 < chunk) :
    ceilChunks total chunk ≤ total := by
  by_contra h
  have h2 := (lt_ceilChunks_iff total chunk total hc).mp (by omega)
  have h3 : total ≤ chunk * total := Nat.le_mul_of_pos_left total hc
  omega

lemma waveSubmit_eq (total chunk : Nat) (hc : 0 < chunk) :
    ∀ i j, waveSubmit total chunk (chunk * j) i =
      (List.range' (chunk * j) (min i (ceilChunks total chunk - j)) chunk,
        chunk * (j + min i (ceilChunks total chunk - j))) := by
  intro i
  induction i with
  | zero => intro j; simp [waveSubmit]
  | succ i ih =>
    intro j
    by_cases hj : total ≤ chunk * j
    · have hm : ceilChunks total chunk - j = 0 := by
        have h2 : ¬ j < ceilChunks total chunk := by
          rw [lt_ceilChunks_iff total chunk j hc]; omega
        omega
      simp [waveSubmit, hj, hm]
    · have hjm : j < ceilChunks total chunk := by
        rw [lt_ceilChunks_iff total chunk j hc]; omega
      have hrec : chunk * j + chunk = chunk * (j + 1) := by ring
      have hmin : min (i + 1) (ceilChunks total chunk - j) =
          min i (ceilChunks total chunk - (j + 1)) + 1 := by omega
      rw [waveSubmit, if_neg (by omega)]
      simp only [hrec, ih (j + 1)]
      rw [hmin, List.range'_succ, hrec]
      simp only [Prod.mk.injEq]
      exact ⟨trivial, by ring⟩

lemma scanOffsetsGo_eq (total chunk maxp : Nat) (hc : 0 < chunk) (hp : 0 < maxp) :
    ∀ fuel j, ceilChunks total chunk - j ≤ fuel →
      scanOffsetsGo total chunk maxp fuel (chunk * j) =
        List.range' (chunk * j) (ceilChunks total chunk - j) chunk := by
  intro fuel
  induction fuel with
  | zero =>
    intro j hf
    have hm : ceilChunks total chunk - j = 0 := by omega
    simp [scanOffsetsGo, hm]
  | succ fuel ih =>
    intro j hf
    by_cases hj : chunk * j < total
    · have hjm : j < ceilChunks total chunk := (lt_ceilChunks_iff total chunk j hc).mpr hj
      rw [scanOffsetsGo, if_pos hj]
      simp only [waveSubmit_eq total chunk hc maxp j]
      set k := min maxp (ceilChunks total chunk - j) with hk
      have hk1 : 1 ≤ k := by omega
      have hkle : k ≤ ceilChunks total chunk - j := by omega
      rw [ih (j + k) (by omega)]
      rw [show chunk * (j + k) = chunk * j + chunk * k from by ring]
      rw [List.range'_append]
      congr 1
      omega
    · have hm : ceilChunks total chunk - j = 0 := by
        have h2 : ¬ j < ceilChunks total chunk := by
          rw [lt_ceilChunks_iff total chunk j hc]; omega
        omega
      rw [scanOffsetsGo, if_neg hj, hm]
      simp

lemma scanOffsets_eq (total chunk maxp : Nat) (hc : 0 < chunk) (hp : 0 < maxp) :
    scanOffsets total chunk maxp = List.range' 0 (ceilChunks total chunk) chunk := by
  have hle := ceilChunks_le_total total chunk hc
  have h := scanOffsetsGo_eq total chunk maxp hc hp (total + 1) 0 (by omega)
  simpa using h

lemma finalCursorGo_eq (total chunk maxp : Nat) (hc : 0 < chunk) (hp : 0 < maxp) :
    ∀ fuel j, ceilChunks total chunk - j ≤ fuel → j ≤ ceilChunks total chunk →
      finalCursorGo total chunk maxp fuel (chunk * j) = chunk * ceilChunks total chunk := by
  intro fuel
  induction fuel with
  | zero =>
    intro j hf hj
    have hm : j = ceilChunks total chunk := by omega
    simp [finalCursorGo, hm]
  | succ fuel ih =>
    intro j hf hj
    by_cases hlt : chunk * j < total
    · have hjm : j < ceilChunks total chunk := (lt_ceilChunks_iff total chunk j hc).mpr hlt
      rw [finalCursorGo, if_pos hlt]
      simp only [waveSubmit_eq total chunk hc maxp j]
      set k := min maxp (ceilChunks total chunk - j) with hk
      have hk1 : 1 ≤ k := by omega
      exact ih (j + k) (by omega) (by omega)
    · have h2 : ¬ j < ceilChunks total chunk := by
        rw [lt_ceilChunks_iff total chunk j hc]; omega
      have hm : j = ceilChunks total chunk := by omega
      rw [finalCursorGo, if_neg hlt, hm]

lemma finalCursor_eq (total chunk maxp : Nat) (hc : 0 < chunk) (hp : 0 < maxp) :
    finalCursor total chunk maxp = chunk * ceilChunks total chunk := by
  have hle := ceilChunks_le_total total chunk hc
  have h := finalCursorGo_eq total chunk maxp hc hp (total + 1) 0 (by omega) (by omega)
  simpa using h

lemma runScanGo_eq_foldlM (total chunk maxp : Nat) (fns : List String)
    (net : Nat → Option Response) :
    ∀ fuel offset acc, runScanGo total chunk maxp fns net fuel offset acc =
      (scanOffsetsGo total chunk maxp fuel offset).foldlM (stepOffset chunk fns net) acc := by
  intro fuel
  induction fuel with
  | zero => intro offset acc; rfl
  | succ fuel ih =>
    intro offset acc
    by_cases hlt : offset < total
    · rw [runScanGo, if_pos hlt, scanOffsetsGo, if_pos hlt]
      rw [List.foldlM_append]
      cases hfold : (waveSubmit total chunk offset maxp).1.foldlM (stepOffset chunk fns net) acc with
      | ok acc2 => simp only [hfold, ih]; rfl
      | error e => simp only [hfold]; rfl
    · rw [runScanGo, if_neg hlt, scanOffsetsGo, if_neg hlt]
      rfl

lemma runScan_eq_foldlM (total chunk maxp : Nat) (fns : List String)
    (net : Nat → Option Response) :
    runScan total chunk maxp fns net =
      (scanOffsets total chunk maxp).foldlM (stepOffset chunk fns net) ⟨0, [], [], [], 0⟩ := by
  rw [runScan, runScanGo_eq_foldlM, scanOffsets]

lemma except_ok_bind {ε α β : Type} (a : α) (f : α → Except ε β) :
    (Except.ok a : Except ε α) >>= f = f a := rfl

lemma except_error_bind {ε α β : Type} (e : ε) (f : α → Except ε β) :
    (Except.error e : Except ε α) >>= f = (Except.error e : Except ε β) := rfl

/-- True when the worker of the chunk at this offset returned normally. -/
def chunkOk (fns : List String) (net : Nat → Option Response) (o : Nat) : Bool :=
  match (process_chunk o fns (net o)).count with
  | .ok _ => true
  | .error _ => false

/-- Count returned by the worker of the chunk at this offset, 0 when it
raised. -/
def chunkCount (fns : List String) (net : Nat → Option Response) (o : Nat) : Nat :=
  match (process_chunk o fns (net o)).count with
  | .ok n => n
  | .error _ => 0

/-- Rows the worker of the chunk at this offset appended. -/
def chunkRows (fns : List String) (net : Nat → Option Response) (o : Nat) :
    List (List String) :=
  (process_chunk o fns (net o)).rows

/-- Error log lines the worker of the chunk at this offset appended. -/
def chunkLogs (fns : List String) (net : Nat → Option Response) (o : Nat) : List String :=
  (process_chunk o fns (net o)).logs

/-- Cursor value after a sequence of submissions each advancing by chunk. -/
def cursorAfter (chunk : Nat) : Nat → List Nat → Nat
  | c, [] => c
  | _, o :: rest => cursorAfter chunk (o + chunk) rest

lemma foldlM_stepOffset_ok (chunk : Nat) (fns : List String) (net : Nat → Option Response) :
    ∀ (L : List Nat) (acc : ScanOutcome), (∀ o ∈ L, chunkOk fns net o = true) →
      L.foldlM (stepOffset chunk fns net) acc =
        .ok ⟨acc.dumped + (L.map (chunkCount fns net)).sum,
             acc.buffer ++ (L.map (chunkRows fns net)).flatten,
             acc.logs ++ (L.map (chunkLogs fns net)).flatten,
             acc.submitted ++ L,
             cursorAfter chunk acc.cursor L⟩ := by
  intro L
  induction L with
  | nil => intro acc h; simp [cursorAfter]; rfl
  | cons o rest ih =>
    intro acc h
    have ho := h o (List.mem_cons_self o rest)
    rw [List.foldlM_cons]
    unfold chunkOk at ho
    cases hcount : (process_chunk o fns (net o)).count with
    | error e => rw [hcount] at ho; simp at ho
    | ok n =>
      have hstep : stepOffset chunk fns net acc o =
          .ok ⟨acc.dumped + n, acc.buffer ++ (process_chunk o fns (net o)).rows,
               acc.logs ++ (process_chunk o fns (net o)).logs, acc.submitted ++ [o],
               o + chunk⟩ := by
        simp only [stepOffset, hcount]
      rw [hstep, except_ok_bind]
      rw [ih _ (fun x hx => h x (List.mem_cons_of_mem o hx))]
      simp [chunkCount, chunkRows, chunkLogs, cursorAfter, hcount,
        List.append_assoc, Nat.add_assoc]

lemma foldlM_stepOffset_error (chunk : Nat) (fns : List String) (net : Nat → Option Response) :
    ∀ (L : List Nat) (acc : ScanOutcome), (∃ o ∈ L, chunkOk fns net o = false) →
      ∃ e, L.foldlM (stepOffset chunk fns net) acc = .error e := by
  intro L
  induction L with
  | nil => intro acc h; simp at h
  | cons o rest ih =>
    intro acc h
    rw [List.foldlM_cons]
    cases hcount : (process_chunk o fns (net o)).count with
    | error e =>
      have hstep : stepOffset chunk fns net acc o = .error e := by
        simp only [stepOffset, hcount]
      rw [hstep, except_error_bind]
      exact ⟨e, rfl⟩
    | ok n =>
      have hstep : stepOffset chunk fns net acc o =
          .ok ⟨acc.dumped + n, acc.buffer ++ (process_chunk o fns (net o)).rows,
               acc.logs ++ (process_chunk o fns (net o)).logs, acc.submitted ++ [o],
               o + chunk⟩ := by
        simp only [stepOffset, hcount]
      rw [hstep, except_ok_bind]
      apply ih
      rcases h with ⟨o', ho', hbad⟩
      rcases List.mem_cons.mp ho' with h1 | h1
      · exfalso
        subst h1
        unfold chunkOk at hbad
        rw [hcount] at hbad
        simp at hbad
      · exact ⟨o', h1, hbad⟩

lemma foldlM_stepOffset_submitted (chunk : Nat) (fns : List String)
    (net : Nat → Option Response) :
    ∀ (L : List Nat) (acc : ScanOutcome) (out : ScanOutcome),
      L.foldlM (stepOffset chunk fns net) acc = .ok out →
      out.submitted = acc.submitted ++ L := by
  intro L
  induction L with
  | nil =>
    intro acc out h
    simp only [List.foldlM_nil] at h
    cases h
    simp
  | cons o rest ih =>
    intro acc out h
    rw [List.foldlM_cons] at h
    cases hcount : (process_chunk o fns (net o)).count with
    | error e =>
      have hstep : stepOffset chunk fns net acc o = .error e := by
        simp only [stepOffset, hcount]
      rw [hstep, except_error_bind] at h
      cases h
    | ok n =>
      have hstep : stepOffset chunk fns net acc o =
          .ok ⟨acc.dumped + n, acc.buffer ++ (process_chunk o fns (net o)).rows,
               acc.logs ++ (process_chunk o fns (net o)).logs, acc.submitted ++ [o],
               o + chunk⟩ := by
        simp only [stepOffset, hcount]
      rw [hstep, except_ok_bind] at h
      have := ih _ _ h
      simpa [List.append_assoc] using this

lemma plannedWidth_sum (chunk : Nat) (hc : 0 < chunk) :
    ∀ m total, m = ceilChunks total chunk →
      ((List.range' 0 m chunk).map (plannedWidth total chunk)).sum = total := by
  intro m
  induction m with
  | zero =>
    intro total hm
    have hiff := lt_ceilChunks_iff total chunk 0 hc
    simp only [Nat.mul_zero] at hiff
    have htot : total = 0 := by omega
    simp [htot]
  | succ k ih =>
    intro total hm
    have hiff := lt_ceilChunks_iff total chunk 0 hc
    simp only [Nat.mul_zero] at hiff
    have hpos : 0 < total := by omega
    have hk : k = ceilChunks (total - chunk) chunk := by
      unfold ceilChunks at hm ⊢
      by_cases hle : total ≤ chunk
      · have h1 : total + chunk - 1 = (total - 1) + chunk := by omega
        rw [h1, Nat.add_div_right _ hc] at hm
        have h2 : (total - 1) / chunk = 0 := Nat.div_eq_of_lt (by omega)
        have h3 : total - chunk = 0 := by omega
        rw [h3]
        have h4 : (0 + chunk - 1) / chunk = 0 := Nat.div_eq_of_lt (by omega)
        omega
      · have h1 : total + chunk - 1 = (total - chunk + chunk - 1) + chunk := by omega
        rw [h1, Nat.add_div_right _ hc] at hm
        omega
    rw [List.range'_succ]
    simp only [List.map_cons, List.sum_cons]
    have hshift : List.range' (0 + chunk) k chunk = (List.range' 0 k chunk).map (chunk + ·) := by
      rw [List.map_add_range']
      congr 1
      omega
    rw [hshift, List.map_map]
    have hfun : (plannedWidth total chunk ∘ (chunk + ·)) = plannedWidth (total - chunk) chunk := by
      funext o
      simp only [Function.comp_apply, plannedWidth]
      omega
    rw [hfun, ih (total - chunk) hk]
    simp only [plannedWidth]
    omega

lemma sum_map_update_zero {f g : Nat → Nat} {x : Nat} :
    ∀ {L : List Nat}, L.Nodup → x ∈ L → f x = 0 → (∀ o ∈ L, o ≠ x → f o = g o) →
      (L.map f).sum + g x = (L.map g).sum := by
  intro L
  induction L with
  | nil => intro _ hx; simp at hx
  | cons a rest ih =>
    intro hnd hx hfx hagree
    rcases List.nodup_cons.mp hnd with ⟨hna, hndr⟩
    simp only [List.map_cons, List.sum_cons]
    rcases List.mem_cons.mp hx with h1 | h1
    · subst h1
      have hmap : rest.map f = rest.map g := by
        apply List.map_congr_left
        intro o ho
        exact hagree o (List.mem_cons_of_mem x ho) (fun he => hna (he ▸ ho))
      rw [hfx, hmap]
      omega
    · have hax : a ≠ x := fun he => hna (he ▸ h1)
      have hfa : f a = g a := hagree a (List.mem_cons_self a rest) hax
      have := ih hndr h1 hfx (fun o ho hne => hagree o (List.mem_cons_of_mem a ho) hne)
      omega

lemma flatten_map_single {α : Type} {g : Nat → List α} {x : Nat} :
    ∀ {L : List Nat}, L.Nodup → x ∈ L → (∀ o ∈ L, o ≠ x → g o = []) →
      (L.map g).flatten = g x := by
  intro L
  induction L with
  | nil => intro _ hx; simp at hx
  | cons a rest ih =>
    intro hnd hx hother
    rcases List.nodup_cons.mp hnd with ⟨hna, hndr⟩
    simp only [List.map_cons, List.flatten_cons]
    rcases List.mem_cons.mp hx with h1 | h1
    · subst h1
      have hrest : (rest.map g).flatten = [] := by
        rw [List.flatten_eq_nil_iff]
        intro l hl
        rcases List.mem_map.mp hl with ⟨o, ho, rfl⟩
        exact hother o (List.mem_cons_of_mem x ho) (fun he => hna (he ▸ ho))
      rw [hrest, List.append_nil]
    · have hax : a ≠ x := fun he => hna (he ▸ h1)
      rw [hother a (List.mem_cons_self a rest) hax, List.nil_append]
      exact ih hndr h1 (fun o ho hne => hother o (List.mem_cons_of_mem a ho) hne)

lemma flatten_map_infix {α : Type} {g : Nat → List α} {x : Nat} :
    ∀ {L : List Nat}, x ∈ L → ∃ pre post, (L.map g).flatten = pre ++ g x ++ post := by
  intro L
  induction L with
  | nil => intro hx; simp at hx
  | cons a rest ih =>
    intro hx
    simp only [List.map_cons, List.flatten_cons]
    rcases List.mem_cons.mp hx with h1 | h1
    · subst h1
      exact ⟨[], (rest.map g).flatten, by simp⟩
    · rcases ih h1 with ⟨pre, post, hp⟩
      exact ⟨g a ++ pre, post, by rw [hp]; simp [List.append_assoc]⟩

lemma mapM_except_ok_length {α β : Type} (f : α → Except String β) :
    ∀ (l : List α) (out : List β), l.mapM f = .ok out → out.length = l.length := by
  intro l
  induction l with
  | nil =>
    intro out h
    simp only [List.mapM_nil] at h
    cases h
    rfl
  | cons a rest ih =>
    intro out h
    rw [List.mapM_cons] at h
    cases hfa : f a with
    | error e => rw [hfa, except_error_bind] at h; cases h
    | ok b =>
      rw [hfa, except_ok_bind] at h
      cases hrest : rest.mapM f with
      | error e => rw [hrest, except_error_bind] at h; cases h
      | ok bs =>
        rw [hrest, except_ok_bind] at h
        cases h
        simp [ih bs hrest]

lemma mapM_except_error_of_mem {α β : Type} (f : α → Except String β) :
    ∀ (l : List α) (x : α), x ∈ l → (∃ e, f x = .error e) →
      ∃ e2, l.mapM f = .error e2 := by
  intro l
  induction l with
  | nil => intro x hx; simp at hx
  | cons a rest ih =>
    intro x hx hex
    rw [List.mapM_cons]
    cases hfa : f a with
    | error e => exact ⟨e, by rw [except_error_bind]⟩
    | ok b =>
      rw [except_ok_bind]
      rcases List.mem_cons.mp hx with h1 | h1
      · exfalso
        rcases hex with ⟨e, he⟩
        rw [h1] at he
        rw [he] at hfa
        cases hfa
      · rcases ih x h1 hex with ⟨e2, he2⟩
        rw [he2, except_error_bind]
        exact ⟨e2, rfl⟩

/-! ### Claim C1: exactly-once offset coverage by the scan scheduler -/

/-- Claim C1: in every scan run the scheduler covers each offset exactly
once: starting at cursor 0 the submitted offsets are exactly the multiples
of chunk below total, in order and without repetition; the cursor advances
by chunk per submitted chunk, so its final value is chunk times the number
of planned chunks, independent of the responses; the loop stops exactly
when the cursor reaches or passes total, meaning the final cursor is the
first such value; and any completed run submitted exactly those offsets
whatever the per-offset responses were. -/
theorem scan_covers_each_offset_exactly_once
    (total chunk maxp : Nat) (fns : List String)
    (hc : 0 < chunk) (hp : 0 < maxp) :
    scanOffsets total chunk maxp = List.range' 0 (ceilChunks total chunk) chunk ∧
    (∀ o, o ∈ scanOffsets total chunk maxp ↔ o % chunk = 0 ∧ o < total) ∧
    (scanOffsets total chunk maxp).Nodup ∧
    finalCursor total chunk maxp = chunk * ceilChunks total chunk ∧
    total ≤ finalCursor total chunk maxp ∧
    finalCursor total chunk maxp < total + chunk ∧
    (∀ net out, runScan total chunk maxp fns net = Except.ok out →
      out.submitted = scanOffsets total chunk maxp) := by
  have hso := scanOffsets_eq total chunk maxp hc hp
  have hfc := finalCursor_eq total chunk maxp hc hp
  refine ⟨hso, ?_, ?_, hfc, ?_, ?_, ?_⟩
  · intro o
    rw [hso, List.mem_range']
    constructor
    · rintro ⟨i, hi, rfl⟩
      refine ⟨by simp [Nat.mul_mod_right], ?_⟩
      have := (lt_ceilChunks_iff total chunk i hc).mp hi
      omega
    · rintro ⟨hmod, hlt⟩
      have hdvd : chunk * (o / chunk) = o :=
        Nat.mul_div_cancel' (Nat.dvd_of_mod_eq_zero hmod)
      refine ⟨o / chunk, ?_, by omega⟩
      rw [lt_ceilChunks_iff total chunk _ hc]
      omega
  · rw [hso]
    exact List.nodup_range' 0 (ceilChunks total chunk) chunk hc
  · rw [hfc]
    have := lt_ceilChunks_iff total chunk (ceilChunks total chunk) hc
    omega
  · rw [hfc]
    cases hm : ceilChunks total chunk with
    | zero => simp; omega
    | succ k =>
      have h1 := (lt_ceilChunks_iff total chunk k hc).mp (by omega)
      have h2 : chunk * (k + 1) = chunk * k + chunk := by ring
      omega
  · intro net out h
    rw [runScan_eq_foldlM] at h
    have := foldlM_stepOffset_submitted chunk fns net (scanOffsets total chunk maxp)
      ⟨0, [], [], [], 0⟩ out h
    simpa using this

/-- Witness for C1 at total 5, chunk 2, maxp 2: the submitted offsets are
0, 2, 4. -/
theorem scan_covers_each_offset_exactly_once_witness :
    0 < 2 ∧ 0 < 2 ∧ scanOffsets 5 2 2 = List.range' 0 (ceilChunks 5 2) 2 :=
  ⟨by decide, by decide,
    (scan_covers_each_offset_exactly_once 5 2 2 ["skyflow_id"] (by decide) (by decide)).1⟩

/-! ### Claims C4 and C7: retry and error-logging behaviour of make_api_call -/

/-- Claim C4: a request whose attempts all fail makes exactly 3 attempts,
sleeps 1 time unit after the first failure and 2 after the second, then
appends exactly one structured error entry to the log and returns the
failure marker none instead of raising. -/
theorem retry_exhaustion (attempts : Nat → AttemptOutcome)
    (h : ∀ i, i < 3 → (attempts i).isExn = true) :
    (make_api_call attempts).result = none ∧
    (make_api_call attempts).sleeps = [1, 2] ∧
    (make_api_call attempts).attemptsMade = 3 ∧
    ∃ e, attempts 2 = .exn e ∧
      (make_api_call attempts).logs = ["API call failed after 3 attempts: " ++ e] := by
  have h0 := h 0 (by decide)
  have h1 := h 1 (by decide)
  have h2 := h 2 (by decide)
  cases ha0 : attempts 0 with
  | ok r => rw [ha0] at h0; simp [AttemptOutcome.isExn] at h0
  | exn e0 =>
  cases ha1 : attempts 1 with
  | ok r => rw [ha1] at h1; simp [AttemptOutcome.isExn] at h1
  | exn e1 =>
  cases ha2 : attempts 2 with
  | ok r => rw [ha2] at h2; simp [AttemptOutcome.isExn] at h2
  | exn e2 =>
  refine ⟨?_, ?_, ?_, e2, rfl, ?_⟩ <;>
    simp [make_api_call, apiCallGo, ha0, ha1, ha2]

/-- Witness for C4: with every attempt failing, the result is none and the
sleeps are 1 and 2. -/
theorem retry_exhaustion_witness :
    (∀ i, i < 3 → ((fun _ => AttemptOutcome.exn "boom") i).isExn = true) ∧
    (make_api_call (fun _ => AttemptOutcome.exn "boom")).result = none ∧
    (make_api_call (fun _ => AttemptOutcome.exn "boom")).sleeps = [1, 2] :=
  ⟨by decide,
    (retry_exhaustion (fun _ => AttemptOutcome.exn "boom") (by decide)).1,
    (retry_exhaustion (fun _ => AttemptOutcome.exn "boom") (by decide)).2.1⟩

/-- Counterexample to C7 as stated: a request whose first attempt fails
and whose second attempt succeeds appends nothing to the error log, so a
retried failure does not produce a log entry. -/
theorem retried_failure_appends_no_log_entry :
    ((fun n => if n = 0 then AttemptOutcome.exn "boom"
        else AttemptOutcome.ok ⟨200, "", []⟩) 0).isExn = true ∧
    (make_api_call (fun n => if n = 0 then AttemptOutcome.exn "boom"
        else AttemptOutcome.ok ⟨200, "", []⟩)).attemptsMade = 2 ∧
    (make_api_call (fun n => if n = 0 then AttemptOutcome.exn "boom"
        else AttemptOutcome.ok ⟨200, "", []⟩)).logs = [] := by
  decide

/-- Claim C7 as amended: the error log receives exactly one entry when an
invocation exhausts all three attempts, and no entry otherwise; in
particular a failed attempt that is later retried appends nothing, and
successful attempts append nothing. -/
theorem error_log_entry_only_on_exhaustion (attempts : Nat → AttemptOutcome) :
    (make_api_call attempts).logs.length =
      (if ((attempts 0).isExn && (attempts 1).isExn && (attempts 2).isExn) = true
        then 1 else 0) := by
  cases ha0 : attempts 0 with
  | ok r => simp [make_api_call, apiCallGo, ha0, AttemptOutcome.isExn]
  | exn e0 =>
    cases ha1 : attempts 1 with
    | ok r => simp [make_api_call, apiCallGo, ha0, ha1, AttemptOutcome.isExn]
    | exn e1 =>
      cases ha2 : attempts 2 with
      | ok r => simp [make_api_call, apiCallGo, ha0, ha1, ha2, AttemptOutcome.isExn]
      | exn e2 => simp [make_api_call, apiCallGo, ha0, ha1, ha2, AttemptOutcome.isExn]

/-! ### Claim C5: isolation of a single failing chunk -/

/-- Bool check that a chunk response is a success of the expected width
whose records all stay inside the schema. -/
def okChunkResp (fns : List String) (width : Nat) : Option Response → Bool
  | some r => r.status == 200 && r.records.length == width &&
      r.records.all (fun rec => rec.fields.all (fun kv => fns.contains kv.1))
  | none => false

lemma mapM_except_ok_of_forall {α β : Type} (f : α → Except String β) :
    ∀ (l : List α), (∀ x ∈ l, ∃ y, f x = .ok y) → ∃ out, l.mapM f = .ok out := by
  intro l
  induction l with
  | nil => intro h; exact ⟨[], rfl⟩
  | cons a rest ih =>
    intro h
    rcases h a (List.mem_cons_self a rest) with ⟨y, hy⟩
    rcases ih (fun x hx => h x (List.mem_cons_of_mem a hx)) with ⟨out, hout⟩
    refine ⟨y :: out, ?_⟩
    rw [List.mapM_cons, hy, except_ok_bind, hout, except_ok_bind]
    rfl

lemma chunk_of_okResp (fns : List String) (net : Nat → Option Response) (o w : Nat)
    (h : okChunkResp fns w (net o) = true) :
    chunkOk fns net o = true ∧ chunkCount fns net o = w ∧
    chunkLogs fns net o = [] ∧ (process_chunk o fns (net o)).rows.length = w := by
  unfold okChunkResp at h
  cases hnet : net o with
  | none => rw [hnet] at h; cases h
  | some r =>
    rw [hnet] at h
    simp only [Bool.and_eq_true, beq_iff_eq] at h
    obtain ⟨⟨hst, hlen⟩, hall⟩ := h
    have hok : ∃ out, r.records.mapM (fun rec => dictWriterRow fns rec.fields) = .ok out := by
      apply mapM_except_ok_of_forall
      intro rec hrec
      have hconf : rec.fields.all (fun kv => fns.contains kv.1) = true := by
        rw [List.all_eq_true] at hall
        exact hall rec hrec
      exact ⟨_, by unfold dictWriterRow; rw [if_pos hconf]⟩
    obtain ⟨out, hmap⟩ := hok
    have hpc : process_chunk o fns (some r) = ⟨.ok r.records.length, out, []⟩ := by
      simp only [process_chunk]
      rw [if_pos hst, hmap]
    have houtlen : out.length = r.records.length :=
      mapM_except_ok_length _ r.records out hmap
    refine ⟨?_, ?_, ?_, ?_⟩ <;>
      simp [chunkOk, chunkCount, chunkLogs, hnet, hpc, hlen, houtlen]

lemma chunk_of_failResp (fns : List String) (net : Nat → Option Response) (o : Nat)
    (h : net o = none) :
    process_chunk o fns (net o) =
      ⟨.ok 0, [], ["Error occurred at offset " ++ toString o ++ ": No response"]⟩ := by
  rw [h]
  rfl

/-- Claim C5: in a scan run where the chunk at exactly one offset fails,
that chunk having a full planned width and every other chunk succeeding
with its planned rows inside the schema, the run completes with dumped
count total minus chunk, the error log holds exactly one entry naming the
failing offset, the failing chunk contributes a count of 0 without
aborting the run, and the rows of every other chunk are still appended
contiguously to the buffer. -/
theorem chunk_failure_isolation
    (total chunk maxp f : Nat) (fns : List String) (net : Nat → Option Response)
    (hc : 0 < chunk) (hp : 0 < maxp)
    (hfmem : f ∈ scanOffsets total chunk maxp)
    (hfull : f + chunk ≤ total)
    (hfail : net f = none)
    (hgood : ∀ o ∈ scanOffsets total chunk maxp, o ≠ f →
      okChunkResp fns (plannedWidth total chunk o) (net o) = true) :
    ∃ out, runScan total chunk maxp fns net = Except.ok out ∧
      out.dumped = total - chunk ∧
      out.logs = ["Error occurred at offset " ++ toString f ++ ": No response"] ∧
      (process_chunk f fns (net f)).count = Except.ok 0 ∧
      (∀ o ∈ scanOffsets total chunk maxp, o ≠ f →
        (process_chunk o fns (net o)).rows.length = plannedWidth total chunk o ∧
        ∃ pre post, out.buffer = pre ++ (process_chunk o fns (net o)).rows ++ post) := by
  have hso := scanOffsets_eq total chunk maxp hc hp
  have hnd : (scanOffsets total chunk maxp).Nodup := by
    rw [hso]
    exact List.nodup_range' 0 (ceilChunks total chunk) chunk hc
  have hfpc := chunk_of_failResp fns net f hfail
  have hallok : ∀ o ∈ scanOffsets total chunk maxp, chunkOk fns net o = true := by
    intro o ho
    by_cases hof : o = f
    · subst hof
      simp [chunkOk, hfpc]
    · exact (chunk_of_okResp fns net o _ (hgood o ho hof)).1
  have hfold := foldlM_stepOffset_ok chunk fns net (scanOffsets total chunk maxp)
    ⟨0, [], [], [], 0⟩ hallok
  rw [runScan_eq_foldlM]
  refine ⟨_, hfold, ?_, ?_, ?_, ?_⟩
  · show 0 + ((scanOffsets total chunk maxp).map (chunkCount fns net)).sum = total - chunk
    have hzero : chunkCount fns net f = 0 := by simp [chunkCount, hfpc]
    have hagree : ∀ o ∈ scanOffsets total chunk maxp, o ≠ f →
        chunkCount fns net o = plannedWidth total chunk o := by
      intro o ho hof
      exact (chunk_of_okResp fns net o _ (hgood o ho hof)).2.1
    have hsum := sum_map_update_zero hnd hfmem hzero hagree
    have htot : ((scanOffsets total chunk maxp).map (plannedWidth total chunk)).sum
        = total := by
      rw [hso]
      exact plannedWidth_sum chunk hc (ceilChunks total chunk) total rfl
    have hpw : plannedWidth total chunk f = chunk := by
      unfold plannedWidth
      omega
    omega
  · show [] ++ ((scanOffsets total chunk maxp).map (chunkLogs fns net)).flatten =
      ["Error occurred at offset " ++ toString f ++ ": No response"]
    rw [List.nil_append]
    rw [flatten_map_single hnd hfmem
      (fun o ho hof => (chunk_of_okResp fns net o _ (hgood o ho hof)).2.2.1)]
    simp [chunkLogs, hfpc]
  · simp [hfpc]
  · intro o ho hof
    refine ⟨(chunk_of_okResp fns net o _ (hgood o ho hof)).2.2.2, ?_⟩
    show ∃ pre post,
      [] ++ ((scanOffsets total chunk maxp).map (chunkRows fns net)).flatten =
        pre ++ (process_chunk o fns (net o)).rows ++ post
    rw [List.nil_append]
    exact flatten_map_infix ho

/-- Concrete network outcome for the C5 witness: the chunk at offset 0
fails, every other chunk returns two schema rows. -/
def c5net : Nat → Option Response :=
  fun o => if o = 0 then none
    else some ⟨200, "x", [⟨[("skyflow_id", "a")]⟩, ⟨[("skyflow_id", "b")]⟩]⟩

/-- Witness for C5 at total 4, chunk 2, offsets 0 and 2 with the chunk at
offset 0 failing: the run completes with dumped count 2 and one log entry
naming offset 0. -/
theorem chunk_failure_isolation_witness :
    (0 ∈ scanOffsets 4 2 5 ∧ 0 + 2 ≤ 4 ∧ c5net 0 = none) ∧
    ∃ out, runScan 4 2 5 ["skyflow_id"] c5net = Except.ok out ∧
      out.dumped = 4 - 2 ∧
      out.logs = ["Error occurred at offset " ++ toString 0 ++ ": No response"] ∧
      (process_chunk 0 ["skyflow_id"] (c5net 0)).count = Except.ok 0 ∧
      (∀ o ∈ scanOffsets 4 2 5, o ≠ 0 →
        (process_chunk o ["skyflow_id"] (c5net o)).rows.length = plannedWidth 4 2 o ∧
        ∃ pre post, out.buffer = pre ++ (process_chunk o ["skyflow_id"] (c5net o)).rows ++ post) :=
  ⟨⟨by decide, by decide, by decide⟩,
    chunk_failure_isolation 4 2 5 0 ["skyflow_id"] c5net (by decide) (by decide)
      (by decide) (by decide) (by decide) (by decide)⟩

/-! ### Claim C10: a record outside the schema aborts the scan run -/

lemma lookupField_tokenRowProjection (fields : List (String × String)) :
    ∀ (fns : List String) (f : String), f ∈ fns →
      lookupField (tokenRowProjection fns fields) f =
        some ((lookupField fields f).getD "") := by
  intro fns
  induction fns with
  | nil => intro f hf; simp at hf
  | cons a rest ih =>
    intro f hf
    by_cases haf : a = f
    · subst haf
      simp [tokenRowProjection, lookupField]
    · have hmem : f ∈ rest := by
        rcases List.mem_cons.mp hf with h1 | h1
        · exact absurd h1.symm haf
        · exact h1
      have hrec := ih f hmem
      simp only [tokenRowProjection, List.map_cons] at hrec ⊢
      unfold lookupField at hrec ⊢
      rw [List.find?_cons]
      have hcond : ((a, (lookupField fields a).getD "").1 == f) = false := by
        simp [haf]
      rw [hcond]
      exact hrec

lemma token_projection_always_writes (fns : List String) (fields : List (String × String)) :
    dictWriterRow fns (tokenRowProjection fns fields) =
      .ok (fns.map (fun f => (lookupField fields f).getD "")) := by
  unfold dictWriterRow
  have hall : (tokenRowProjection fns fields).all (fun kv => fns.contains kv.1) = true := by
    rw [List.all_eq_true]
    intro kv hkv
    rcases List.mem_map.mp hkv with ⟨f, hf, rfl⟩
    exact List.elem_eq_true_of_mem hf
  rw [if_pos hall]
  congr 1
  apply List.map_congr_left
  intro f hf
  rw [lookupField_tokenRowProjection fields fns f hf]
  rfl

/-- Claim C10: a successful scan response containing a record with a field
outside the derived schema makes the scan worker raise from the CSV row
writer instead of returning a count, and that exception is re-raised at
the wave join, turning the whole run into an error; by contrast the token
path projection drops unknown fields and fills missing schema fields with
the empty string, so its row writer always succeeds. -/
theorem malformed_record_aborts_scan
    (total chunk maxp o0 : Nat) (fns : List String) (net : Nat → Option Response)
    (r : Response) (rec : ApiRecord) (kv : String × String)
    (hmem : o0 ∈ scanOffsets total chunk maxp)
    (hresp : net o0 = some r) (hstatus : r.status = 200)
    (hrec : rec ∈ r.records) (hkv : kv ∈ rec.fields)
    (hbad : fns.contains kv.1 = false) :
    (∃ e, (process_chunk o0 fns (net o0)).count = Except.error e) ∧
    (∃ e, runScan total chunk maxp fns net = Except.error e) ∧
    (∀ fields, dictWriterRow fns (tokenRowProjection fns fields) =
      .ok (fns.map (fun f => (lookupField fields f).getD ""))) := by
  have hrow : dictWriterRow fns rec.fields =
      .error "ValueError: dict contains fields not in fieldnames" := by
    unfold dictWriterRow
    rw [if_neg ?_]
    intro hall
    rw [List.all_eq_true] at hall
    rw [hall kv hkv] at hbad
    cases hbad
  have hmapM : ∃ e2, r.records.mapM (fun x => dictWriterRow fns x.fields) = .error e2 :=
    mapM_except_error_of_mem _ r.records rec hrec ⟨_, hrow⟩
  obtain ⟨e2, hmapM⟩ := hmapM
  have hcount : (process_chunk o0 fns (net o0)).count = Except.error e2 := by
    rw [hresp]
    simp only [process_chunk]
    rw [if_pos hstatus, hmapM]
  refine ⟨⟨e2, hcount⟩, ?_, fun fields => token_projection_always_writes fns fields⟩
  rw [runScan_eq_foldlM]
  apply foldlM_stepOffset_error
  refine ⟨o0, hmem, ?_⟩
  unfold chunkOk
  rw [hcount]

/-- Witness for C10: a response at offset 0 holding a record with the
extra field bogus makes the run abort. -/
theorem malformed_record_aborts_scan_witness :
    ((fun _ => some (⟨200, "", [⟨[("skyflow_id", "a"), ("bogus", "b")]⟩]⟩ : Response)) 0
        = some ⟨200, "", [⟨[("skyflow_id", "a"), ("bogus", "b")]⟩]⟩) ∧
    (∃ e, runScan 2 2 5 ["skyflow_id"]
      (fun _ => some ⟨200, "", [⟨[("skyflow_id", "a"), ("bogus", "b")]⟩]⟩) =
        Except.error e) :=
  ⟨by decide,
    (malformed_record_aborts_scan 2 2 5 0 ["skyflow_id"]
      (fun _ => some ⟨200, "", [⟨[("skyflow_id", "a"), ("bogus", "b")]⟩]⟩)
      ⟨200, "", [⟨[("skyflow_id", "a"), ("bogus", "b")]⟩]⟩
      ⟨[("skyflow_id", "a"), ("bogus", "b")]⟩ ("bogus", "b")
      (by decide) (by decide) (by decide) (by decide) (by decide) (by decide)).2.1⟩

/-! ### Claim C3: schema derivation and the unique column gate -/

/-- Claim C3: from a nonempty first page the schema is the key list of the
first record reordered: with a configured unique id column present among
the keys, that column comes first and skyflow_id second; without one,
skyflow_id comes first; the remaining columns keep their original
relative order; and a configured unique id column absent from the keys
makes the run abort fatally with no scan chunk submitted and no artifact
published. -/
theorem schema_derivation_order (u : String) (fields : List (String × String)) :
    (u ∈ fields.map Prod.fst →
      ∃ L, derive_fieldnames (some u) fields = .ok L ∧
        L.head? = some u ∧ L.tail.head? = some "skyflow_id" ∧
        (L.drop 2).Sublist (fields.map Prod.fst) ∧
        (∀ f, f ∈ L.drop 2 ↔ f ∈ fields.map Prod.fst ∧ f ≠ u ∧ f ≠ "skyflow_id")) ∧
    (u ∉ fields.map Prod.fst →
      (∃ msg, derive_fieldnames (some u) fields = .error msg) ∧
      (∀ (cr : Response) (total chunk maxp : Nat) (net : Nat → Option Response)
          (pt : String) (rest : List ApiRecord), cr.status = 200 →
        (runPipeline (some u) (some cr) total (some ⟨200, pt, ⟨fields⟩ :: rest⟩)
            chunk maxp net).exitCode = 1 ∧
        (runPipeline (some u) (some cr) total (some ⟨200, pt, ⟨fields⟩ :: rest⟩)
            chunk maxp net).artifact = none ∧
        (runPipeline (some u) (some cr) total (some ⟨200, pt, ⟨fields⟩ :: rest⟩)
            chunk maxp net).scanSubmitted = [])) ∧
    (∃ L, derive_fieldnames none fields = .ok L ∧
      L.head? = some "skyflow_id" ∧
      (L.drop 1).Sublist (fields.map Prod.fst) ∧
      (∀ f, f ∈ L.drop 1 ↔ f ∈ fields.map Prod.fst ∧ f ≠ "skyflow_id")) := by
  refine ⟨?_, ?_, ?_⟩
  · intro hmem
    have hcon : (fields.map Prod.fst).contains u = true :=
      List.elem_eq_true_of_mem hmem
    refine ⟨u :: "skyflow_id" :: (fields.map Prod.fst).filter
        (fun f => f != u && f != "skyflow_id"), ?_, rfl, rfl, ?_, ?_⟩
    · simp only [derive_fieldnames]
      rw [if_pos hcon]
    · simp
    · intro f
      simp only [List.drop_succ_cons, List.drop_zero, List.mem_filter,
        Bool.and_eq_true, bne_iff_ne]
  · intro hmem
    have hcon : (fields.map Prod.fst).contains u = false := by
      rw [Bool.eq_false_iff]
      intro hcon
      exact hmem (List.elem_iff.mp hcon)
    have hderr : derive_fieldnames (some u) fields =
        .error "Unique column specified is not found. Please rerun the script without the parameter or specify the correct name of unique column." := by
      simp only [derive_fieldnames]
      rw [if_neg (by rw [hcon]; exact Bool.false_ne_true)]
    refine ⟨⟨_, hderr⟩, ?_⟩
    intro cr total chunk maxp net pt rest hcr
    refine ⟨?_, ?_, ?_⟩ <;> simp [runPipeline, hcr, hderr]
  · refine ⟨"skyflow_id" :: (fields.map Prod.fst).filter (fun f => f != "skyflow_id"),
        rfl, rfl, ?_, ?_⟩
    · simp
    · intro f
      simp only [List.drop_succ_cons, List.drop_zero, List.mem_filter,
        Bool.and_eq_true, bne_iff_ne]

/-- Witness for C3 with first record keys name, cust, skyflow_id and the
unique id column cust: the schema starts cust, skyflow_id. -/
theorem schema_derivation_order_witness :
    ("cust" ∈ [("name", "x"), ("cust", "y"), ("skyflow_id", "z")].map Prod.fst) ∧
    ∃ L, derive_fieldnames (some "cust")
        [("name", "x"), ("cust", "y"), ("skyflow_id", "z")] = .ok L ∧
      L.head? = some "cust" ∧ L.tail.head? = some "skyflow_id" ∧
      (L.drop 2).Sublist ([("name", "x"), ("cust", "y"), ("skyflow_id", "z")].map Prod.fst) ∧
      (∀ f, f ∈ L.drop 2 ↔
        f ∈ [("name", "x"), ("cust", "y"), ("skyflow_id", "z")].map Prod.fst ∧
          f ≠ "cust" ∧ f ≠ "skyflow_id") :=
  ⟨by decide,
    (schema_derivation_order "cust" [("name", "x"), ("cust", "y"), ("skyflow_id", "z")]).1
      (by decide)⟩

/-! ### Claim C6: hard gates abort without publishing, completion publishes -/

/-- Claim C6: every pipeline gate failure, namely a failed count query, a
failed or empty schema probe, or a configured unique column missing from
the schema, makes the process exit with status 1 after appending one log
line, and no output artifact is created; conversely a run whose gates
pass and whose scan completes publishes the buffer under the derived
header and exits with status 0. -/
theorem pipeline_gates_and_publish (uid : Option String)
    (countResp probeResp : Option Response)
    (total chunk maxp : Nat) (net : Nat → Option Response) :
    (respFailed countResp = true →
      (runPipeline uid countResp total probeResp chunk maxp net).exitCode = 1 ∧
      (runPipeline uid countResp total probeResp chunk maxp net).artifact = none ∧
      (runPipeline uid countResp total probeResp chunk maxp net).logs.length = 1) ∧
    (respFailed countResp = false → respFailed probeResp = true →
      (runPipeline uid countResp total probeResp chunk maxp net).exitCode = 1 ∧
      (runPipeline uid countResp total probeResp chunk maxp net).artifact = none ∧
      (runPipeline uid countResp total probeResp chunk maxp net).logs.length = 1) ∧
    (∀ pr, respFailed countResp = false → probeResp = some pr → pr.status = 200 →
      pr.records = [] →
      (runPipeline uid countResp total probeResp chunk maxp net).exitCode = 1 ∧
      (runPipeline uid countResp total probeResp chunk maxp net).artifact = none ∧
      (runPipeline uid countResp total probeResp chunk maxp net).logs.length = 1) ∧
    (∀ pr rec0 rest msg, respFailed countResp = false → probeResp = some pr →
      pr.status = 200 → pr.records = rec0 :: rest →
      derive_fieldnames uid rec0.fields = Except.error msg →
      (runPipeline uid countResp total probeResp chunk maxp net).exitCode = 1 ∧
      (runPipeline uid countResp total probeResp chunk maxp net).artifact = none ∧
      (runPipeline uid countResp total probeResp chunk maxp net).logs.length = 1) ∧
    (∀ pr rec0 rest fns out, respFailed countResp = false → probeResp = some pr →
      pr.status = 200 → pr.records = rec0 :: rest →
      derive_fieldnames uid rec0.fields = Except.ok fns →
      runScan total chunk maxp fns net = Except.ok out →
      (runPipeline uid countResp total probeResp chunk maxp net).exitCode = 0 ∧
      (runPipeline uid countResp total probeResp chunk maxp net).artifact =
        some (fns, out.buffer) ∧
      (runPipeline uid countResp total probeResp chunk maxp net).dumped =
        some out.dumped) := by
  refine ⟨?_, ?_, ?_, ?_, ?_⟩
  · intro h
    cases countResp with
    | none => exact ⟨rfl, rfl, rfl⟩
    | some cr =>
      have hne : cr.status ≠ 200 := by
        unfold respFailed at h
        simpa using h
      simp only [runPipeline]
      rw [if_pos hne]
      exact ⟨rfl, rfl, rfl⟩
  · intro hcount h
    cases countResp with
    | none => cases hcount
    | some cr =>
      have hst : cr.status = 200 := by
        unfold respFailed at hcount
        simpa using hcount
      simp only [runPipeline]
      rw [if_neg (by simp [hst])]
      cases probeResp with
      | none => exact ⟨rfl, rfl, rfl⟩
      | some pr =>
        have hne : pr.status ≠ 200 := by
          unfold respFailed at h
          simpa using h
        simp [runPipeline, hst, hne]
  · intro pr hcount hprobe hprst hrecs
    cases countResp with
    | none => cases hcount
    | some cr =>
      have hst : cr.status = 200 := by
        unfold respFailed at hcount
        simpa using hcount
      subst hprobe
      simp [runPipeline, hst, hprst, hrecs]
  · intro pr rec0 rest msg hcount hprobe hprst hrecs hderr
    cases countResp with
    | none => cases hcount
    | some cr =>
      have hst : cr.status = 200 := by
        unfold respFailed at hcount
        simpa using hcount
      subst hprobe
      simp [runPipeline, hst, hprst, hrecs, hderr]
  · intro pr rec0 rest fns out hcount hprobe hprst hrecs hder hscan
    cases countResp with
    | none => cases hcount
    | some cr =>
      have hst : cr.status = 200 := by
        unfold respFailed at hcount
        simpa using hcount
      subst hprobe
      simp [runPipeline, hst, hprst, hrecs, hder, hscan]

/-- Witness for C6: a failed count query exits with status 1 and creates
no artifact. -/
theorem pipeline_gates_and_publish_witness :
    respFailed none = true ∧
    (runPipeline none none 0 none 1 1 (fun _ => none)).exitCode = 1 ∧
    (runPipeline none none 0 none 1 1 (fun _ => none)).artifact = none ∧
    (runPipeline none none 0 none 1 1 (fun _ => none)).logs.length = 1 :=
  ⟨by decide,
    (pipeline_gates_and_publish none none none 0 1 1 (fun _ => none)).1 (by decide)⟩

/-! ### Claim C8: reporting when completed falls short of the expected total -/

/-- Concrete network outcome for the C8 run: the chunk at offset 0 fails,
the chunk at offset 2 returns two rows. -/
def c8net : Nat → Option Response :=
  fun o => if o = 0 then none
    else some ⟨200, "", [⟨[("skyflow_id", "a")]⟩, ⟨[("skyflow_id", "b")]⟩]⟩

/-- The concrete C8 pipeline run: expected total 4 rows, one of the two
chunks fails, so only 2 rows are collected. -/
def c8run : PipelineResult :=
  runPipeline none (some ⟨200, "", [⟨[("count(*)", "4")]⟩]⟩) 4
    (some ⟨200, "", [⟨[("skyflow_id", "a")]⟩]⟩) 2 5 c8net

/-- Counterexample to C8 as stated: in a run that collects 2 of 4 expected
rows, everything printed after the scan loop is the dumped count line and
the elapsed time line; no printed line mentions the error log path and
none mentions the expected total, so no explicit gap warning naming the
error log is surfaced at end of run. -/
theorem end_of_run_output_has_no_gap_warning :
    c8run.dumped = some 2 ∧ 2 < 4 ∧ c8run.exitCode = 0 ∧
    c8run.artifact = some (["skyflow_id"], [["a"], ["b"]]) ∧
    (endOfRunReport 2 "0.10").all
      (fun m => !(strContains m "error_log.txt") && !(strContains m "4")) = true :=
  ⟨by decide, by decide, by decide, by decide, by decide⟩

/-- Claim C8 as amended: a run that finishes with fewer collected rows
than the expected total still publishes the collected rows and exits
zero, but the shortfall is only implied by the printed dumped row count;
the end-of-run output consists solely of the dumped count line and the
elapsed time line, with no explicit gap warning and no error log path. -/
theorem partial_loss_still_published (uid : Option String) (cr pr : Response)
    (total chunk maxp : Nat) (net : Nat → Option Response) (rec0 : ApiRecord)
    (rest : List ApiRecord) (fns : List String) (out : ScanOutcome) (elapsed : String)
    (hcr : cr.status = 200) (hpr : pr.status = 200) (hrecs : pr.records = rec0 :: rest)
    (hd : derive_fieldnames uid rec0.fields = Except.ok fns)
    (hs : runScan total chunk maxp fns net = Except.ok out)
    (_hgap : out.dumped < total) :
    (runPipeline uid (some cr) total (some pr) chunk maxp net).exitCode = 0 ∧
    (runPipeline uid (some cr) total (some pr) chunk maxp net).artifact =
      some (fns, out.buffer) ∧
    (runPipeline uid (some cr) total (some pr) chunk maxp net).dumped = some out.dumped ∧
    endOfRunReport out.dumped elapsed =
      ["Data dump completed. Total records dumped: " ++ toString out.dumped,
       "Total time taken: " ++ elapsed ++ " seconds"] := by
  refine ⟨?_, ?_, ?_, rfl⟩ <;> simp [runPipeline, hcr, hpr, hrecs, hd, hs]

/-- Witness for C8 as amended, on the concrete two-chunk run with one
failure: the artifact is still published with the 2 collected rows. -/
theorem partial_loss_still_published_witness :
    (runScan 4 2 5 ["skyflow_id"] c8net =
      Except.ok ⟨2, [["a"], ["b"]], ["Error occurred at offset 0: No response"], [0, 2], 4⟩) ∧
    (2 < 4) ∧
    c8run.exitCode = 0 ∧
    c8run.artifact = some (["skyflow_id"], [["a"], ["b"]]) ∧
    c8run.dumped = some 2 :=
  ⟨rfl, by decide,
    (partial_loss_still_published none ⟨200, "", [⟨[("count(*)", "4")]⟩]⟩
      ⟨200, "", [⟨[("skyflow_id", "a")]⟩]⟩ 4 2 5 c8net ⟨[("skyflow_id", "a")]⟩ []
      ["skyflow_id"]
      ⟨2, [["a"], ["b"]], ["Error occurred at offset 0: No response"], [0, 2], 4⟩ "0.10"
      rfl rfl rfl rfl rfl (by decide)).1,
    (partial_loss_still_published none ⟨200, "", [⟨[("count(*)", "4")]⟩]⟩
      ⟨200, "", [⟨[("skyflow_id", "a")]⟩]⟩ 4 2 5 c8net ⟨[("skyflow_id", "a")]⟩ []
      ["skyflow_id"]
      ⟨2, [["a"], ["b"]], ["Error occurred at offset 0: No response"], [0, 2], 4⟩ "0.10"
      rfl rfl rfl rfl rfl (by decide)).2.1,
    (partial_loss_still_published none ⟨200, "", [⟨[("count(*)", "4")]⟩]⟩
      ⟨200, "", [⟨[("skyflow_id", "a")]⟩]⟩ 4 2 5 c8net ⟨[("skyflow_id", "a")]⟩ []
      ["skyflow_id"]
      ⟨2, [["a"], ["b"]], ["Error occurred at offset 0: No response"], [0, 2], 4⟩ "0.10"
      rfl rfl rfl rfl rfl (by decide)).2.2.1⟩

/-! ### Claim C9: query parameters of the two chunk request kinds -/

/-- Counterexample to C9 as stated: the scan chunk request carries no
limit parameter at all; the offset is present but the rows-per-chunk
count is not sent. -/
theorem scan_request_carries_no_limit_parameter :
    ((scanChunkQuery "DEFAULT" 25).map Prod.fst).contains "limit" = false ∧
    ((scanChunkQuery "DEFAULT" 25).map Prod.fst).contains "offset" = true :=
  ⟨by decide, by decide⟩

lemma filterMap_skyflow_ids (ids : List String) :
    (ids.map (fun i => (("skyflow_ids", i) : String × String))).filterMap
      (fun kv => if kv.1 == "skyflow_ids" then some kv.2 else none) = ids := by
  induction ids with
  | nil => rfl
  | cons a rest ih => simpa using ih

/-- Claim C9 as amended: every scan chunk request carries the offset of
the chunk, the configured redaction level and ascending order, and no
limit parameter, the server default page size being relied on instead;
every token chunk request carries tokenization=true and the identifiers
of the batch as repeated skyflow_ids parameters in batch order. -/
theorem chunk_request_parameters (redaction : String) (offset : Nat) (ids : List String) :
    lookupField (scanChunkQuery redaction offset) "offset" = some (toString offset) ∧
    lookupField (scanChunkQuery redaction offset) "redaction" = some redaction ∧
    lookupField (scanChunkQuery redaction offset) "order_by" = some "ASCENDING" ∧
    (∀ kv ∈ scanChunkQuery redaction offset, kv.1 ≠ "limit") ∧
    lookupField (tokenChunkQuery ids) "tokenization" = some "true" ∧
    (tokenChunkQuery ids).filterMap
      (fun kv => if kv.1 == "skyflow_ids" then some kv.2 else none) = ids := by
  refine ⟨rfl, rfl, rfl, ?_, rfl, ?_⟩
  · intro kv hkv
    simp only [scanChunkQuery, List.mem_cons, List.mem_singleton] at hkv
    rcases hkv with rfl | rfl | rfl | h
    · intro h2; exact absurd h2 (show ("redaction" : String) ≠ "limit" by decide)
    · intro h2; exact absurd h2 (show ("offset" : String) ≠ "limit" by decide)
    · intro h2; exact absurd h2 (show ("order_by" : String) ≠ "limit" by decide)
    · simp at h
  · unfold tokenChunkQuery
    rw [List.filterMap_cons]
    simpa using filterMap_skyflow_ids ids

/-! ### Claim C2: the token join reattaches the primary column value -/

lemma lookupField_map_update (k v : String) :
    ∀ (m : List (String × String)), m.any (fun kv => kv.1 == k) = true →
      lookupField (m.map (fun kv => if kv.1 == k then (kv.1, v) else kv)) k = some v := by
  intro m
  induction m with
  | nil => intro h; simp at h
  | cons a rest ih =>
    intro h
    by_cases hak : (a.1 == k) = true
    · simp only [List.map_cons, hak, if_true]
      unfold lookupField
      rw [List.find?_cons]
      simp only [hak]
      rfl
    · have hrest : rest.any (fun kv => kv.1 == k) = true := by
        simp only [List.any_cons, Bool.or_eq_true] at h
        rcases h with h | h
        · exact absurd h hak
        · exact h
      simp only [List.map_cons, if_neg hak]
      unfold lookupField at ih ⊢
      rw [List.find?_cons]
      simp only [hak]
      exact ih hrest

lemma lookupField_dictInsert_self (m : List (String × String)) (k v : String) :
    lookupField (dictInsert m k v) k = some v := by
  unfold dictInsert
  by_cases h : m.any (fun kv => kv.1 == k) = true
  · rw [if_pos h]
    exact lookupField_map_update k v m h
  · rw [if_neg h]
    have hnone : m.find? (fun kv => kv.1 == k) = none := by
      rw [List.find?_eq_none]
      intro x hx hpx
      exact h (List.any_eq_true.mpr ⟨x, hx, hpx⟩)
    unfold lookupField
    rw [List.find?_append, hnone]
    simp [List.find?_cons]

lemma lookupField_dictInsert_ne (m : List (String × String)) (k v key : String)
    (hne : key ≠ k) :
    lookupField (dictInsert m k v) key = lookupField m key := by
  unfold dictInsert
  by_cases h : m.any (fun kv => kv.1 == k) = true
  · rw [if_pos h]
    clear h
    induction m with
    | nil => rfl
    | cons a rest ih =>
      simp only [List.map_cons]
      unfold lookupField at ih ⊢
      rw [List.find?_cons, List.find?_cons]
      by_cases hak : (a.1 == k) = true
      · simp only [hak, if_true]
        have hkey : (a.1 == key) = false := by
          have h1 : a.1 = k := by simpa using hak
          rw [h1]
          exact beq_eq_false_iff_ne.mpr (Ne.symm hne)
        simp only [hkey]
        exact ih
      · rw [if_neg hak]
        by_cases hak2 : (a.1 == key) = true
        · simp only [hak2]
        · simp only [hak2]
          exact ih
  · rw [if_neg h]
    unfold lookupField
    rw [List.find?_append]
    have hlast : [(k, v)].find? (fun kv => kv.1 == key) = none := by
      rw [List.find?_eq_none]
      intro x hx hpx
      rcases List.mem_singleton.mp hx with rfl
      have hkk : k = key := by simpa using hpx
      exact hne hkk.symm
    rw [hlast]
    cases m.find? (fun kv => kv.1 == key) <;> rfl

lemma readScanArtifact_snd (u : String) :
    ∀ (rows : List (List (String × String))) (ids : List String)
      (m : List (String × String)),
      (rows.foldl
        (fun acc row =>
          (acc.1 ++ [getField row "skyflow_id"],
            dictInsert acc.2 (getField row "skyflow_id") (getField row u)))
        (ids, m)).2 =
      rows.foldl
        (fun m2 row => dictInsert m2 (getField row "skyflow_id") (getField row u)) m := by
  intro rows
  induction rows with
  | nil => intro ids m; rfl
  | cons r rest ih => intro ids m; exact ih _ _

lemma lookupField_scan_foldl (u id : String) :
    ∀ (rows : List (List (String × String))) (m : List (String × String)),
      lookupField (rows.foldl
        (fun m2 row => dictInsert m2 (getField row "skyflow_id") (getField row u)) m) id =
      match rows.reverse.find? (fun row => getField row "skyflow_id" == id) with
      | some row => some (getField row u)
      | none => lookupField m id := by
  intro rows
  induction rows with
  | nil => intro m; rfl
  | cons r rest ih =>
    intro m
    rw [List.foldl_cons, ih]
    rw [List.reverse_cons, List.find?_append]
    cases hfind : rest.reverse.find? (fun row => getField row "skyflow_id" == id) with
    | some row => rfl
    | none =>
      simp only [Option.none_or]
      rw [List.find?_cons]
      by_cases hr : (getField r "skyflow_id" == id) = true
      · simp only [hr]
        have hid : getField r "skyflow_id" = id := by simpa using hr
        rw [hid, lookupField_dictInsert_self]
      · simp only [hr]
        have hid : id ≠ getField r "skyflow_id" := by
          intro he
          exact hr (by simp [he])
        rw [lookupField_dictInsert_ne _ _ _ _ hid]
        rfl

lemma find?_of_filter_singleton {α : Type} (p : α → Bool) :
    ∀ (l : List α) (x : α), l.filter p = [x] → l.find? p = some x := by
  intro l
  induction l with
  | nil => intro x h; simp at h
  | cons a rest ih =>
    intro x h
    rw [List.find?_cons]
    cases hpa : p a with
    | true =>
      rw [List.filter_cons_of_pos hpa] at h
      simp only [List.cons.injEq] at h
      rw [h.1]
    | false =>
      rw [List.filter_cons_of_neg (by simp [hpa])] at h
      exact ih x h

lemma readScanArtifact_some_snd (u : String) (rows : List (List (String × String))) :
    (readScanArtifact (some u) rows).2 =
      rows.foldl
        (fun m2 row => dictInsert m2 (getField row "skyflow_id") (getField row u)) [] := by
  show (rows.foldl
      (fun acc row =>
        (acc.1 ++ [getField row "skyflow_id"],
          dictInsert acc.2 (getField row "skyflow_id") (getField row u)))
      ([], [])).2 = _
  exact readScanArtifact_snd u rows [] []

/-- Claim C2: with a configured unique id column, every row read back from
the token buffer whose skyflow_id is a key of the join map built from the
scan artifact is published with the scan artifact primary column value
for that identifier, independent of the order the token rows came back
in; rows whose identifier is absent from the join map are published
unchanged. -/
theorem token_join_reattaches_primary (u : String)
    (scanRows tokenRows : List (List (String × String))) :
    (∀ row ∈ tokenRows, ∀ v,
      lookupField (readScanArtifact (some u) scanRows).2 (getField row "skyflow_id") =
        some v →
      mergeTokenRow (some u) (readScanArtifact (some u) scanRows).2 row =
        dictInsert row u v ∧
      lookupField (dictInsert row u v) u = some v ∧
      (∀ k, k ≠ u → lookupField (dictInsert row u v) k = lookupField row k)) ∧
    (∀ row ∈ tokenRows,
      lookupField (readScanArtifact (some u) scanRows).2 (getField row "skyflow_id") =
        none →
      mergeTokenRow (some u) (readScanArtifact (some u) scanRows).2 row = row) ∧
    (∀ id sr, scanRows.filter (fun r => getField r "skyflow_id" == id) = [sr] →
      lookupField (readScanArtifact (some u) scanRows).2 id = some (getField sr u)) ∧
    (∀ tokenRows2, tokenRows.Perm tokenRows2 →
      (mergeTokenRows (some u) (readScanArtifact (some u) scanRows).2 tokenRows).Perm
        (mergeTokenRows (some u) (readScanArtifact (some u) scanRows).2 tokenRows2)) := by
  refine ⟨?_, ?_, ?_, ?_⟩
  · intro row hrow v hv
    refine ⟨?_, lookupField_dictInsert_self row u v,
      fun k hk => lookupField_dictInsert_ne row u v k hk⟩
    simp only [mergeTokenRow]
    rw [hv]
  · intro row hrow hnone
    simp only [mergeTokenRow]
    rw [hnone]
  · intro id sr hfilter
    rw [readScanArtifact_some_snd, lookupField_scan_foldl]
    have hrev : scanRows.reverse.filter (fun r => getField r "skyflow_id" == id) = [sr] := by
      rw [List.filter_reverse, hfilter]
      rfl
    rw [find?_of_filter_singleton _ _ _ hrev]
  · intro tokenRows2 hperm
    exact hperm.map _

/-- Witness for C2: a one-row scan artifact with primary value X under
column cust gives a join map resolving identifier a to X. -/
theorem token_join_reattaches_primary_witness :
    ([[("cust", "X"), ("skyflow_id", "a")]].filter
        (fun r => getField r "skyflow_id" == "a") = [[("cust", "X"), ("skyflow_id", "a")]]) ∧
    lookupField (readScanArtifact (some "cust")
        [[("cust", "X"), ("skyflow_id", "a")]]).2 "a" =
      some (getField [("cust", "X"), ("skyflow_id", "a")] "cust") :=
  ⟨by decide,
    (token_join_reattaches_primary "cust" [[("cust", "X"), ("skyflow_id", "a")]] []).2.2.1
      "a" [("cust", "X"), ("skyflow_id", "a")] (by decide)⟩
